import Mathlib

/-!
A verification development for `tcp.h` (samkumar/tcp)

The header `src/tcp.h` declares the constants, the wire header `struct tcp_header`,
the connection states `enum tcp_state` and the Transmission Control Block
`struct tcp_socket` of a user-space TCP.  The definitions below embed those
declarations.  Machine integers are natural numbers, reduced modulo `2 ^ w` where a
value is stored in a `w`-bit field.

The operations on a TCB (`tcp.c`) are not part of the sources.  Where a property is
about such an operation, the operation is modelled from the specification and the
definition says so.
-/

namespace Tcp

/-! ## Constants (`tcp.h`, lines 9-27) -/

/-- Constant MAXSOCKETS, from `#define MAXSOCKETS 16`, commented "Power of 2" in the source. -/
def MAXSOCKETS : Nat := 16

/-- Constant FLAG_CWR, from `#define FLAG_CWR 0x80` -/
def FLAG_CWR : Nat := 0x80
/-- Constant FLAG_ECE, from `#define FLAG_ECE 0x40` -/
def FLAG_ECE : Nat := 0x40
/-- Constant FLAG_URG, from `#define FLAG_URG 0x20` -/
def FLAG_URG : Nat := 0x20
/-- Constant FLAG_ACK, from `#define FLAG_ACK 0x10` -/
def FLAG_ACK : Nat := 0x10
/-- Constant FLAG_PSH, from `#define FLAG_PSH 0x08` -/
def FLAG_PSH : Nat := 0x08
/-- Constant FLAG_RST, from `#define FLAG_RST 0x04` -/
def FLAG_RST : Nat := 0x04
/-- Constant FLAG_SYN, from `#define FLAG_SYN 0x02` -/
def FLAG_SYN : Nat := 0x02
/-- Constant FLAG_FIN, from `#define FLAG_FIN 0x01` -/
def FLAG_FIN : Nat := 0x01

/-- Constant LOCALHOST, from `#define LOCALHOST 0x0100007f` -/
def LOCALHOST : Nat := 0x0100007f

/-- Constant MAX_TRIES, from `#define MAX_TRIES 5` -/
def MAX_TRIES : Nat := 5

/-- Constant SENDBUFLEN, from `#define SENDBUFLEN 256` -/
def SENDBUFLEN : Nat := 256
/-- Constant RECVBUFLEN, from `#define RECVBUFLEN 256` -/
def RECVBUFLEN : Nat := 256
/-- Constant RETRBUFLEN, from `#define RETRBUFLEN 256` -/
def RETRBUFLEN : Nat := 256

/-! ## Fixed-width unsigned integer types -/

/-- The three `stdint.h` types used by the declarations of `tcp.h`. -/
inductive CUInt where
  | uint8_t
  | uint16_t
  | uint32_t
deriving DecidableEq, Repr

/-- Width in bits of a fixed-width unsigned type. -/
def CUInt.bits : CUInt → Nat
  | .uint8_t => 8
  | .uint16_t => 16
  | .uint32_t => 32

/-- Size in bytes of a fixed-width unsigned type (`sizeof`). -/
def CUInt.bytes : CUInt → Nat
  | .uint8_t => 1
  | .uint16_t => 2
  | .uint32_t => 4

/-- Conversion of a non-negative value to an unsigned type on assignment: the value
is reduced modulo `2 ^ bits`. -/
def CUInt.store (t : CUInt) (v : Nat) : Nat := v % 2 ^ t.bits

/-! ## `struct tcp_header` (`tcp.h`, lines 34-44) -/

/-- A member declaration of a struct: its name and its type. -/
structure Member where
  name : String
  type : CUInt
deriving DecidableEq, Repr

/-- The member declarations of `struct tcp_header`, in declaration order. -/
def tcp_header_members : List Member :=
  [ ⟨"srcport", .uint16_t⟩,
    ⟨"destport", .uint16_t⟩,
    ⟨"seqnum", .uint32_t⟩,
    ⟨"acknum", .uint32_t⟩,
    ⟨"offset_reserved_NS", .uint8_t⟩,
    ⟨"flags", .uint8_t⟩,
    ⟨"winsize", .uint16_t⟩,
    ⟨"checksum", .uint16_t⟩,
    ⟨"urgentptr", .uint16_t⟩ ]

/-- Layout under `__attribute__((packed))`: every member is placed at the first byte
after the previous member.  Starting at offset `off`, the result pairs each member
with its byte offset. -/
def packedLayout : Nat → List Member → List (Member × Nat)
  | _, [] => []
  | off, m :: ms => (m, off) :: packedLayout (off + m.type.bytes) ms

/-- Size of a packed struct: the sum of the sizes of its members. -/
def packedSize (ms : List Member) : Nat := (ms.map (fun m => m.type.bytes)).sum

/-- Layout under the natural alignment rule (every member aligned to its own size),
which is what the compiler would use without the `packed` attribute. -/
def alignedLayout : Nat → List Member → List (Member × Nat)
  | _, [] => []
  | off, m :: ms =>
    let a := m.type.bytes
    let o := (off + a - 1) / a * a
    (m, o) :: alignedLayout (o + a) ms

/-- Byte offset of the member called `n` in a layout, if there is one. -/
def offsetOf (l : List (Member × Nat)) (n : String) : Option Nat :=
  (l.find? (fun p => p.1.name == n)).map (fun p => p.2)

/-- The wire header as a record of field values, each within the range of its type's
width once stored. -/
structure tcp_header where
  srcport : Nat
  destport : Nat
  seqnum : Nat
  acknum : Nat
  offset_reserved_NS : Nat
  flags : Nat
  winsize : Nat
  checksum : Nat
  urgentptr : Nat
deriving DecidableEq, Repr

/-- Assignment `hdr->winsize = v`: the value is converted to `uint16_t`. -/
def tcp_header.setWinsize (h : tcp_header) (v : Nat) : tcp_header :=
  { h with winsize := CUInt.uint16_t.store v }

/-! ## The flag byte (`tcp.h`, lines 12-19 and 40) -/

/-- The eight flag constants in the order in which the header defines them. -/
def flagMasks : List Nat :=
  [FLAG_CWR, FLAG_ECE, FLAG_URG, FLAG_ACK, FLAG_PSH, FLAG_RST, FLAG_SYN, FLAG_FIN]

/-- Number of bits set among the eight bits of a byte. -/
def popcount8 (v : Nat) : Nat := ((List.range 8).filter (fun i => v.testBit i)).length

/-- The flags present in a flag byte: those masks `f` with `v & f` non-zero. -/
def decodeFlags (v : Nat) : List Nat := flagMasks.filter (fun f => v &&& f != 0)

/-- The flag byte carrying a set of flags: the bitwise OR of the masks. -/
def encodeFlags (fs : List Nat) : Nat := fs.foldl (fun acc f => acc ||| f) 0

/-! ## `enum tcp_state` (`tcp.h`, lines 46-47) -/

/-- The connection states, in declaration order. -/
inductive tcp_state where
  | LISTEN
  | SYN_SENT
  | SYN_RECEIVED
  | ESTABLISHED
  | FIN_WAIT_1
  | FIN_WAIT_2
  | CLOSE_WAIT
  | CLOSING
  | LAST_ACK
  | TIME_WAIT
  | CLOSED
deriving DecidableEq, Repr, Fintype

/-- The integer value of an enumerator: C numbers them from 0 in declaration order. -/
def tcp_state.toNat : tcp_state → Nat
  | .LISTEN => 0
  | .SYN_SENT => 1
  | .SYN_RECEIVED => 2
  | .ESTABLISHED => 3
  | .FIN_WAIT_1 => 4
  | .FIN_WAIT_2 => 5
  | .CLOSE_WAIT => 6
  | .CLOSING => 7
  | .LAST_ACK => 8
  | .TIME_WAIT => 9
  | .CLOSED => 10

/-- The enumerator with a given integer value, if there is one. -/
def tcp_state.ofNat? : Nat → Option tcp_state
  | 0 => some .LISTEN
  | 1 => some .SYN_SENT
  | 2 => some .SYN_RECEIVED
  | 3 => some .ESTABLISHED
  | 4 => some .FIN_WAIT_1
  | 5 => some .FIN_WAIT_2
  | 6 => some .CLOSE_WAIT
  | 7 => some .CLOSING
  | 8 => some .LAST_ACK
  | 9 => some .TIME_WAIT
  | 10 => some .CLOSED
  | _ => none

/-- The states listed by the specification, in the order in which it lists them. -/
def specStates : List tcp_state :=
  [.LISTEN, .SYN_SENT, .SYN_RECEIVED, .ESTABLISHED, .FIN_WAIT_1, .FIN_WAIT_2,
   .CLOSE_WAIT, .CLOSING, .LAST_ACK, .TIME_WAIT, .CLOSED]

/-! ## `struct tcp_socket` (`tcp.h`, lines 50-110) -/

/-- A fixed-capacity array of bytes, `uint8_t buf[cap]`: exactly `cap` cells, each a
value below 256. -/
structure ByteBuf (cap : Nat) where
  cells : List (Fin 256)
  size_eq : cells.length = cap

/-- The bytes of a buffer from index `off`, at most `len` of them. -/
def ByteBuf.slice {cap : Nat} (b : ByteBuf cap) (off len : Nat) : List (Fin 256) :=
  (b.cells.drop off).take len

/-- The buffer with every cell zero. -/
def ByteBuf.zero (cap : Nat) : ByteBuf cap := ⟨List.replicate cap 0, by simp⟩

/-- The `SND` member: the send sequence variables. -/
structure SndVars where
  UNA : Nat
  NXT : Nat
  WND : Nat
  UP : Nat
  WL1 : Nat
  WL2 : Nat
deriving DecidableEq, Repr

/-- The `RCV` member: the receive sequence variables. -/
structure RcvVars where
  NXT : Nat
  WND : Nat
  UP : Nat
deriving DecidableEq, Repr

/-- The Transmission Control Block.  The members `local_addr`, `remote_addr`
(`struct sockaddr_in`), `nextretry` (`struct timespec`), `send_lock`, `recv_lock`
(`pthread_mutex_t`) and `dataready` (`pthread_cond_t`) have types declared by system
headers; those types are parameters of the embedding. -/
structure tcp_socket (sockaddr_in timespec pthread_mutex_t pthread_cond_t : Type) where
  index : Int
  activeopen : Int
  local_addr : sockaddr_in
  remote_addr : sockaddr_in
  state : tcp_state
  retriesactive : Int
  nextretry : timespec
  numretries : Nat
  sendbuf : ByteBuf SENDBUFLEN
  recvbuf : ByteBuf RECVBUFLEN
  retrbuf : ByteBuf RETRBUFLEN
  send_lock : pthread_mutex_t
  recv_lock : pthread_mutex_t
  dataready : pthread_cond_t
  finseqnum : Nat
  SND : SndVars
  ISS : Nat
  RCV : RcvVars
  IRS : Nat

/-- The capacities of the byte buffers a TCB declares, with their names, in declaration
order. -/
def tcp_socket_buffers : List (String × Nat) :=
  [("sendbuf", SENDBUFLEN), ("recvbuf", RECVBUFLEN), ("retrbuf", RETRBUFLEN)]

/-- Assignment `sock->RCV.WND = v`: the value is converted to `uint16_t`. -/
def RcvVars.setWND (r : RcvVars) (v : Nat) : RcvVars :=
  { r with WND := CUInt.uint16_t.store v }

/-- Assignment `sock->SND.WND = v`: the value is converted to `uint16_t`. -/
def SndVars.setWND (s : SndVars) (v : Nat) : SndVars :=
  { s with WND := CUInt.uint16_t.store v }

/-! ## Byte order of `LOCALHOST` (`tcp.h`, line 21) -/

/-- The four bytes of a 32-bit value in little-endian memory order (lowest address
first). -/
def bytesLE32 (x : Nat) : List Nat :=
  [x % 256, x / 256 % 256, x / 65536 % 256, x / 16777216 % 256]

/-- The 32-bit value whose bytes in big-endian (network) order are the given four. -/
def ofBytesBE32 : List Nat → Nat
  | [b0, b1, b2, b3] => b0 * 16777216 + b1 * 65536 + b2 * 256 + b3
  | _ => 0

/-- Byte swap of a 32-bit value, which is what `htonl` does on a little-endian host. -/
def bswap32 (x : Nat) : Nat :=
  (x % 256) * 16777216 + (x / 256 % 256) * 65536 + (x / 65536 % 256) * 256
    + x / 16777216 % 256

/-! ## Index-mask lookup into the socket table (`tcp.h`, lines 9-10) -/

/-- The table slot selected by masking an index with `MAXSOCKETS - 1`. -/
def maskIndex (i : Nat) : Nat := i &&& (MAXSOCKETS - 1)

/-! ## Wrap-safe comparison of sequence numbers -/

/-- Modelled from the spec: the difference `a - b` of two sequence numbers in 32-bit
unsigned arithmetic.  The comparisons of the sequence variables `SND.*`, `RCV.*`,
`ISS`, `IRS` are made in `tcp.c`, which is not among the sources; the spec asks for
"wrap-safe circular arithmetic" modulo `2 ^ 32`. -/
def seq_sub (a b : Nat) : Nat := (a % 2 ^ 32 + 2 ^ 32 - b % 2 ^ 32) % 2 ^ 32

/-- Reading of a 32-bit pattern as a signed two-complement integer, the cast
`(int32_t) x`. -/
def toInt32 (x : Nat) : Int :=
  if x % 2 ^ 32 < 2 ^ 31 then (x % 2 ^ 32 : Nat) else ((x % 2 ^ 32 : Nat) : Int) - 2 ^ 32

/-- Modelled from the spec: the wrap-safe strict comparison `a < b` of sequence
numbers (`tcp.c` is missing): the sign of the 32-bit difference `a - b` decides, never
the plain integer comparison. -/
def seq_lt (a b : Nat) : Bool := decide (toInt32 (seq_sub a b) < 0)

/-- Modelled from the spec: the wrap-safe comparison `a ≤ b` of sequence numbers
(`tcp.c` is missing): the 32-bit difference `a - b` is negative or zero. -/
def seq_leq (a b : Nat) : Bool := decide (toInt32 (seq_sub a b) ≤ 0)

/-- Forward distance on the sequence circle from `a` to `b`: how many steps `a` must
advance, modulo `2 ^ 32`, to reach `b`. -/
def seq_dist (a b : Nat) : Nat := seq_sub b a

/-! ## The receive buffer and `RCV.WND` -/

/-- Modelled from the spec: the receive side of a TCB as `tcp.c` (missing from the
sources) maintains it.  `state` is the connection state, `unread` the content of the
receive buffer: "data received in-order, not yet consumed by the user", oldest byte
first.  `RCV` holds the receive sequence variables of the TCB. -/
structure RecvSide where
  state : tcp_state
  unread : List (Fin 256)
  RCV : RcvVars
deriving DecidableEq, Repr

/-- Modelled from the spec: abort of a connection (`tcp.c` is missing): "immediate
transition to CLOSED and discards buffered data".  The spec states no change of the
sequence variables, so `RCV` is left as it is. -/
def RecvSide.abort (r : RecvSide) : RecvSide :=
  { r with state := .CLOSED, unread := [] }

/-- The invariant of the receive side: the buffer holds at most `RECVBUFLEN` bytes and
`RCV.WND` is the free space. -/
def RecvSide.WindowExact (r : RecvSide) : Prop :=
  r.unread.length ≤ RECVBUFLEN ∧ r.RCV.WND = RECVBUFLEN - r.unread.length

instance (r : RecvSide) : Decidable r.WindowExact := by
  unfold RecvSide.WindowExact
  exact inferInstance

/-! ## The retransmission timer -/

/-- What the timer does for a TCB whose retry deadline has elapsed. -/
inductive TimerAction where
  | resend
  | abort
deriving DecidableEq, Repr

/-- Modelled from the spec: the timer rule for one TCB whose deadline has elapsed
(`tcp.c` is missing): "if `numretries < MAX_TRIES`, resend the buffered
retransmit-buffer segment, increment `numretries`, and reschedule with an increased
(backoff) deadline; if `numretries >= MAX_TRIES`, abort the connection (force state
CLOSED ...)".  The deadline arithmetic is the parameter `backoff`. -/
def retry_timeout {A T M C : Type} (backoff : T → T) (sock : tcp_socket A T M C) :
    tcp_socket A T M C × TimerAction :=
  if sock.numretries < MAX_TRIES then
    ({ sock with
        numretries := CUInt.uint32_t.store (sock.numretries + 1),
        nextretry := backoff sock.nextretry }, .resend)
  else
    ({ sock with state := .CLOSED }, .abort)

/-- The TCB and the actions taken, oldest first, over `k` successive elapsed deadlines
of an armed retry. -/
def retry_deadlines {A T M C : Type} (backoff : T → T) :
    Nat → tcp_socket A T M C → tcp_socket A T M C × List TimerAction
  | 0, sock => (sock, [])
  | k + 1, sock =>
    let r := retry_timeout backoff sock
    let rest := retry_deadlines backoff k r.1
    (rest.1, r.2 :: rest.2)

/-- A TCB with every field zero, in state CLOSED, over trivial system types. -/
def tcp_socket.blank : tcp_socket Unit Unit Unit Unit :=
  { index := 0, activeopen := 0, local_addr := (), remote_addr := (), state := .CLOSED,
    retriesactive := 0, nextretry := (), numretries := 0,
    sendbuf := ByteBuf.zero SENDBUFLEN, recvbuf := ByteBuf.zero RECVBUFLEN,
    retrbuf := ByteBuf.zero RETRBUFLEN, send_lock := (), recv_lock := (), dataready := (),
    finseqnum := 0, SND := ⟨0, 0, 0, 0, 0, 0⟩, ISS := 0, RCV := ⟨0, 0, 0⟩, IRS := 0 }

/-! ## Theorems -/

/-! ### Layout of the wire header -/

/-- In a packed layout every member ends where the next one begins, and the last one
ends at the size of the struct plus the starting offset. -/
theorem packedLayout_contiguous (ms : List Member) (off : Nat) :
    (packedLayout off ms).map (fun p => p.2 + p.1.type.bytes) =
      ((packedLayout off ms).map (fun p => p.2)).tail ++
        (if ms = [] then [] else [off + packedSize ms]) := by
  induction ms generalizing off with
  | nil => simp [packedLayout]
  | cons m ms ih =>
    cases ms with
    | nil => simp [packedLayout, packedSize]
    | cons m2 ms2 =>
      have h := ih (off + m.type.bytes)
      simp only [packedLayout, List.map_cons, List.tail_cons, reduceCtorEq, if_false,
        List.cons_append, packedSize, List.sum_cons] at h ⊢
      rw [h]
      simp [Nat.add_assoc]

/-- C1: the members of the packed `struct tcp_header`, in declaration order, have sizes
2, 2, 4, 4, 1, 1, 2, 2, 2 and lie at byte offsets 0, 2, 4, 8, 12, 13, 14, 16, 18; each
member ends where the next begins (no padding) and the struct is exactly 20 bytes.  The
natural alignment rule gives the same layout. -/
theorem tcp_header_layout :
    (packedLayout 0 tcp_header_members).map (fun p => (p.1.name, p.1.type.bytes, p.2)) =
      [("srcport", 2, 0), ("destport", 2, 2), ("seqnum", 4, 4), ("acknum", 4, 8),
       ("offset_reserved_NS", 1, 12), ("flags", 1, 13), ("winsize", 2, 14),
       ("checksum", 2, 16), ("urgentptr", 2, 18)] ∧
    (packedLayout 0 tcp_header_members).map (fun p => p.2 + p.1.type.bytes) =
      [2, 4, 8, 12, 13, 14, 16, 18, 20] ∧
    packedSize tcp_header_members = 20 ∧
    alignedLayout 0 tcp_header_members = packedLayout 0 tcp_header_members := by
  refine ⟨?_, ?_, ?_, ?_⟩
  · rfl
  · rfl
  · rfl
  · rfl

/-! ### The flag byte -/

set_option maxRecDepth 100000 in
/-- Decoding a flag byte and encoding the result gives the byte back. -/
theorem encode_decode_flags (v : Fin 256) : encodeFlags (decodeFlags v.val) = v.val := by
  revert v
  decide

/-- C2: the flag constants are, in order, 0x80, 0x40, 0x20, 0x10, 0x08, 0x04, 0x02, 0x01;
each has exactly one bit set, two distinct ones have bitwise AND 0, the OR of all eight
is 0xFF, and decoding a flag byte is injective with the OR of the decoded masks as its
inverse, so every byte value decodes to its own subset of the eight flags. -/
theorem flag_masks_single_bits :
    flagMasks = [0x80, 0x40, 0x20, 0x10, 0x08, 0x04, 0x02, 0x01] ∧
    flagMasks.map popcount8 = [1, 1, 1, 1, 1, 1, 1, 1] ∧
    flagMasks.Pairwise (fun f g => f ≠ g ∧ f &&& g = 0) ∧
    encodeFlags flagMasks = 0xFF ∧
    (∀ v : Fin 256, (decodeFlags v.val).Sublist flagMasks ∧
      encodeFlags (decodeFlags v.val) = v.val) ∧
    Function.Injective (fun v : Fin 256 => decodeFlags v.val) := by
  refine ⟨rfl, by decide, by decide, by decide, ?_, ?_⟩
  · intro v
    exact ⟨List.filter_sublist _, encode_decode_flags v⟩
  · intro v w h
    have hv := encode_decode_flags v
    have hw := encode_decode_flags w
    simp only at h
    rw [h] at hv
    exact Fin.ext (hv.symm.trans hw)

/-! ### The connection states -/

/-- C5: `enum tcp_state` has exactly eleven values, pairwise distinct, and they are the
states the specification lists, in the same order (enumerator values 0 to 10 in
declaration order); the state field of every TCB holds one of them. -/
theorem tcp_state_eleven_values :
    Fintype.card tcp_state = 11 ∧
    specStates.length = 11 ∧
    specStates.Nodup ∧
    specStates.map tcp_state.toNat = List.range 11 ∧
    List.map tcp_state.ofNat? (List.range 11) = specStates.map some ∧
    Function.Injective tcp_state.toNat ∧
    (∀ s : tcp_state, s ∈ specStates) ∧
    (∀ (A T M C : Type) (sock : tcp_socket A T M C), sock.state ∈ specStates) := by
  have hall : ∀ s : tcp_state, s ∈ specStates := by
    intro s
    cases s <;> simp [specStates]
  refine ⟨rfl, rfl, by decide, rfl, rfl, ?_, hall, fun _ _ _ _ sock => hall sock.state⟩
  intro s t h
  cases s <;> cases t <;> first | rfl | (exact absurd h (by decide))

/-! ### The socket table index -/

/-- C6: `MAXSOCKETS` is 16, a power of two, and masking any index with
`MAXSOCKETS - 1` gives the index modulo `MAXSOCKETS`, a valid slot number. -/
theorem maxsockets_mask_lookup :
    MAXSOCKETS = 16 ∧ MAXSOCKETS = 2 ^ 4 ∧
    ∀ i : Nat, maskIndex i = i % MAXSOCKETS ∧ maskIndex i < MAXSOCKETS := by
  refine ⟨rfl, rfl, ?_⟩
  intro i
  have h : maskIndex i = i % MAXSOCKETS := by
    show i &&& (2 ^ 4 - 1) = i % 2 ^ 4
    exact Nat.and_pow_two_sub_one_eq_mod i 4
  refine ⟨h, ?_⟩
  rw [h]
  exact Nat.mod_lt _ (by decide)

/-! ### The buffers of a TCB -/

/-- C7: a TCB declares exactly three byte buffers, `sendbuf`, `recvbuf` and `retrbuf`,
of capacities `SENDBUFLEN`, `RECVBUFLEN`, `RETRBUFLEN`, each exactly 256;
`RETRBUFLEN ≥ SENDBUFLEN`, so any run of bytes taken from the send buffer is no longer
than the retransmit buffer. -/
theorem tcb_buffer_capacities :
    tcp_socket_buffers = [("sendbuf", 256), ("recvbuf", 256), ("retrbuf", 256)] ∧
    SENDBUFLEN = 256 ∧ RECVBUFLEN = 256 ∧ RETRBUFLEN = 256 ∧
    SENDBUFLEN ≤ RETRBUFLEN ∧
    (∀ (A T M C : Type) (sock : tcp_socket A T M C),
      sock.sendbuf.cells.length = 256 ∧ sock.recvbuf.cells.length = 256 ∧
      sock.retrbuf.cells.length = 256 ∧
      ∀ off len : Nat, (sock.sendbuf.slice off len).length ≤ sock.retrbuf.cells.length) := by
  refine ⟨rfl, rfl, rfl, rfl, by decide, ?_⟩
  intro A T M C sock
  refine ⟨sock.sendbuf.size_eq, sock.recvbuf.size_eq, sock.retrbuf.size_eq, ?_⟩
  intro off len
  have h1 := sock.sendbuf.size_eq
  have h2 := sock.retrbuf.size_eq
  simp only [ByteBuf.slice, List.length_take, List.length_drop, h1, h2, SENDBUFLEN,
    RETRBUFLEN]
  omega

/-! ### The loopback address -/

/-- C9: `LOCALHOST` is 0x0100007f; its bytes in little-endian memory order are
127, 0, 0, 1, the address 127.0.0.1 in network order, and it is the byte swap of
0x7f000001. -/
theorem localhost_is_loopback :
    LOCALHOST = 0x0100007f ∧
    bytesLE32 LOCALHOST = [127, 0, 0, 1] ∧
    ofBytesBE32 [127, 0, 0, 1] = 0x7f000001 ∧
    LOCALHOST = bswap32 0x7f000001 ∧
    bswap32 LOCALHOST = 0x7f000001 := by
  refine ⟨rfl, by decide, by decide, by decide, by decide⟩

/-! ### The 16-bit window fields -/

/-- C10: for every count `n ≤ RECVBUFLEN` of buffered unread bytes the window
`RECVBUFLEN - n` is at most 65535, and storing it in `RCV.WND`, then in the `winsize`
field of a header, gives `RECVBUFLEN - n` back unchanged; every peer window
`w ≤ SENDBUFLEN` is stored unchanged in `SND.WND`. -/
theorem window_fields_never_truncate (n w : Nat) (hn : n ≤ RECVBUFLEN)
    (hw : w ≤ SENDBUFLEN) (rcv : RcvVars) (snd : SndVars) (hdr : tcp_header) :
    RECVBUFLEN - n ≤ 65535 ∧
    (rcv.setWND (RECVBUFLEN - n)).WND = RECVBUFLEN - n ∧
    (hdr.setWinsize (RECVBUFLEN - n)).winsize = RECVBUFLEN - n ∧
    (hdr.setWinsize (rcv.setWND (RECVBUFLEN - n)).WND).winsize = RECVBUFLEN - n ∧
    (snd.setWND w).WND = w := by
  simp only [RECVBUFLEN, SENDBUFLEN] at hn hw
  simp only [RcvVars.setWND, SndVars.setWND, tcp_header.setWinsize, CUInt.store,
    CUInt.bits, RECVBUFLEN]
  omega

/-- Witness for C10 with 100 bytes buffered and a peer window of 256. -/
theorem window_fields_never_truncate_witness :
    (100 ≤ RECVBUFLEN ∧ 256 ≤ SENDBUFLEN) ∧
    (RcvVars.setWND ⟨0, 0, 0⟩ (RECVBUFLEN - 100)).WND = RECVBUFLEN - 100 ∧
    (SndVars.setWND ⟨0, 0, 0, 0, 0, 0⟩ 256).WND = 256 :=
  have h := window_fields_never_truncate 100 256 (by decide) (by decide) ⟨0, 0, 0⟩
    ⟨0, 0, 0, 0, 0, 0⟩ ⟨0, 0, 0, 0, 0, 0, 0, 0, 0⟩
  ⟨⟨by decide, by decide⟩, h.2.1, h.2.2.2.2⟩

/-! ### Wrap-safe comparison -/

/-- The comparison `a ≤ b` holds exactly when the forward distance from `a` to `b` is at
most half the sequence space. -/
theorem seq_leq_iff_dist (a b : Nat) : seq_leq a b = true ↔ seq_dist a b ≤ 2 ^ 31 := by
  simp only [seq_leq, seq_dist, seq_sub, toInt32, decide_eq_true_eq]
  split <;> omega

/-- The comparison `a < b` holds exactly when the forward distance from `a` to `b` is
positive and at most half the sequence space. -/
theorem seq_lt_iff_dist (a b : Nat) :
    seq_lt a b = true ↔ 0 < seq_dist a b ∧ seq_dist a b ≤ 2 ^ 31 := by
  simp only [seq_lt, seq_dist, seq_sub, toInt32, decide_eq_true_eq]
  split <;> omega

/-- Forward distances add up modulo `2 ^ 32`. -/
theorem seq_dist_add (a b c : Nat) :
    seq_dist a c = (seq_dist a b + seq_dist b c) % 2 ^ 32 := by
  simp only [seq_dist, seq_sub]
  omega

/-- No comparison of 32-bit sequence numbers that accepts `a < a + 1` (modulo
`2 ^ 32`) for every `a` and never accepts `a < a` is transitive: going once around the
circle would give `a < a`. -/
theorem circular_lt_not_transitive (lt : Nat → Nat → Bool)
    (hsucc : ∀ a, a < 2 ^ 32 → lt a ((a + 1) % 2 ^ 32) = true)
    (hirr : ∀ a, a < 2 ^ 32 → lt a a = false) :
    ∃ a b c, a < 2 ^ 32 ∧ b < 2 ^ 32 ∧ c < 2 ^ 32 ∧
      lt a b = true ∧ lt b c = true ∧ lt a c = false := by
  by_contra hno
  have htrans : ∀ a b c, a < 2 ^ 32 → b < 2 ^ 32 → c < 2 ^ 32 →
      lt a b = true → lt b c = true → lt a c = true := by
    intro a b c ha hb hc hab hbc
    by_contra hac
    exact hno ⟨a, b, c, ha, hb, hc, hab, hbc, by simpa using hac⟩
  have hreach : ∀ k, k + 1 < 2 ^ 32 → lt 0 (k + 1) = true := by
    intro k
    induction k with
    | zero =>
      intro _
      have h := hsucc 0 (by norm_num)
      simpa using h
    | succ k ih =>
      intro hk
      have h1 := ih (by omega)
      have h2 := hsucc (k + 1) (by omega)
      rw [Nat.mod_eq_of_lt hk] at h2
      exact htrans 0 (k + 1) (k + 1 + 1) (by norm_num) (by omega) hk h1 h2
  have hlast := hreach (2 ^ 32 - 2) (by norm_num)
  have hwrap := hsucc (2 ^ 32 - 1) (by norm_num)
  have h0 : lt 0 0 = true :=
    htrans 0 (2 ^ 32 - 1) 0 (by norm_num) (by norm_num) (by norm_num)
      (by simpa using hlast) (by simpa using hwrap)
  have h1 := hirr 0 (by norm_num)
  rw [h0] at h1
  exact absurd h1 (by decide)

/-- C3, as stated, fails: the wrap-safe comparison accepts `0 ≤ 0x7FFFFFFF` and
`0x7FFFFFFF ≤ 0xFFFFFFFE` but rejects `0 ≤ 0xFFFFFFFE`, so it is not transitive over all
32-bit sequence numbers. -/
theorem seq_leq_not_transitive :
    ¬ (∀ a b c : Nat, a < 2 ^ 32 → b < 2 ^ 32 → c < 2 ^ 32 →
        seq_leq a b = true → seq_leq b c = true → seq_leq a c = true) := by
  intro h
  have hc := h 0 0x7FFFFFFF 0xFFFFFFFE (by norm_num) (by norm_num) (by norm_num)
    (by decide) (by decide)
  exact absurd hc (by decide)

/-- The reading of `a ≤ b ≤ c` as "`b` lies on the forward arc from `a` to `c`" does not
rescue the statement either: 1 lies on the arc from 0 to 0xFFFFFFFF, yet the comparison
rejects `1 ≤ 0xFFFFFFFF`. -/
theorem seq_leq_arc_not_accepted :
    seq_dist 0 1 ≤ seq_dist 0 0xFFFFFFFF ∧ seq_leq 1 0xFFFFFFFF = false := by
  constructor <;> decide

/-- C3, amended: when the forward distances from `a` to `b` and from `b` to `c` add up
to less than half the sequence space (`2 ^ 31`), the wrap-safe comparison accepts
`a ≤ b`, `b ≤ c` and `a ≤ c`, wherever the three numbers lie with respect to the
`2 ^ 32` boundary; and 0xFFFFFFF0 compares as strictly less than 0x00000005, not the
other way round. -/
theorem seq_leq_trans_within_window (a b c : Nat)
    (hwin : seq_dist a b + seq_dist b c < 2 ^ 31) :
    (seq_leq a b = true ∧ seq_leq b c = true ∧ seq_leq a c = true) ∧
    (seq_lt 0xFFFFFFF0 0x00000005 = true ∧ seq_lt 0x00000005 0xFFFFFFF0 = false) := by
  refine ⟨⟨?_, ?_, ?_⟩, by decide, by decide⟩
  · rw [seq_leq_iff_dist]; omega
  · rw [seq_leq_iff_dist]; omega
  · rw [seq_leq_iff_dist, seq_dist_add a b c]
    have : (seq_dist a b + seq_dist b c) % 2 ^ 32 ≤ seq_dist a b + seq_dist b c :=
      Nat.mod_le _ _
    omega

/-- Witness for the amended C3 across the wraparound boundary: a = 0xFFFFFFF0,
b = 0x00000005, c = 0x00000100. -/
theorem seq_leq_trans_within_window_witness :
    seq_dist 0xFFFFFFF0 0x00000005 + seq_dist 0x00000005 0x00000100 < 2 ^ 31 ∧
    seq_leq 0xFFFFFFF0 0x00000100 = true :=
  ⟨by decide, (seq_leq_trans_within_window 0xFFFFFFF0 0x00000005 0x00000100
    (by decide)).1.2.2⟩

/-! ### The receive window -/

/-- An abort keeps the invariant exactly when nothing was buffered: otherwise the
discarded bytes are missing from the window. -/
theorem windowExact_abort_iff (r : RecvSide) (h : r.WindowExact) :
    r.abort.WindowExact ↔ r.unread = [] := by
  obtain ⟨hlen, hwnd⟩ := h
  simp only [RecvSide.WindowExact, RecvSide.abort, List.length_nil, RECVBUFLEN] at *
  constructor
  · intro hab
    apply List.eq_nil_of_length_eq_zero
    omega
  · intro hnil
    simp only [hnil, List.length_nil] at hwnd
    omega

/-- A retry that has not yet reached the limit is resent at each elapsed deadline until
the limit is reached, and aborted at every deadline after that. -/
theorem retry_deadlines_actions {A T M C : Type} (backoff : T → T) (k : Nat)
    (sock : tcp_socket A T M C) (h : sock.numretries ≤ MAX_TRIES) :
    (retry_deadlines backoff k sock).2 =
      List.replicate (min k (MAX_TRIES - sock.numretries)) TimerAction.resend ++
      List.replicate (k - (MAX_TRIES - sock.numretries)) TimerAction.abort := by
  induction k generalizing sock with
  | zero => simp [retry_deadlines]
  | succ k ih =>
    simp only [retry_deadlines, retry_timeout]
    by_cases hlt : sock.numretries < MAX_TRIES
    · simp only [hlt, if_true]
      simp only [MAX_TRIES] at h hlt
      have hst : CUInt.uint32_t.store (sock.numretries + 1) = sock.numretries + 1 := by
        simp only [CUInt.store, CUInt.bits]
        omega
      rw [ih _ (by simp only [hst, MAX_TRIES]; omega)]
      simp only [hst, MAX_TRIES]
      have e1 : min (k + 1) (5 - sock.numretries) = min k (5 - (sock.numretries + 1)) + 1 := by
        omega
      have e2 : k + 1 - (5 - sock.numretries) = k - (5 - (sock.numretries + 1)) := by
        omega
      rw [e1, e2, List.replicate_succ, List.cons_append]
    · have heq : sock.numretries = MAX_TRIES := by omega
      simp only [hlt, if_false]
      rw [ih _ (by simp only [heq]; exact Nat.le_refl _)]
      simp [heq, List.replicate_succ]

/-- The connection state is untouched while the timer only resends. -/
theorem retry_deadlines_state {A T M C : Type} (backoff : T → T) (k : Nat)
    (sock : tcp_socket A T M C) (h : sock.numretries + k ≤ MAX_TRIES) :
    (retry_deadlines backoff k sock).1.state = sock.state ∧
    (retry_deadlines backoff k sock).1.numretries = sock.numretries + k := by
  induction k generalizing sock with
  | zero => simp [retry_deadlines]
  | succ k ih =>
    simp only [MAX_TRIES] at h
    have hlt : sock.numretries < MAX_TRIES := by simp only [MAX_TRIES]; omega
    have hst : CUInt.uint32_t.store (sock.numretries + 1) = sock.numretries + 1 := by
      simp only [CUInt.store, CUInt.bits]
      omega
    simp only [retry_deadlines, retry_timeout, hlt, if_true]
    have := ih { sock with
        numretries := CUInt.uint32_t.store (sock.numretries + 1),
        nextretry := backoff sock.nextretry } (by simp only [hst, MAX_TRIES]; omega)
    simp only [hst] at this ⊢
    refine ⟨this.1, ?_⟩
    rw [this.2]
    omega

/-- C8: `MAX_TRIES` is 5, and a segment whose retry counter starts at 0 is resent at
each of the first five elapsed deadlines and the connection is aborted (state CLOSED) at
the sixth; over any number of deadlines the segment is resent at most five times, and
no abort happens within the first five. -/
theorem max_tries_five_resends {A T M C : Type} (backoff : T → T)
    (sock : tcp_socket A T M C) (h0 : sock.numretries = 0) :
    MAX_TRIES = 5 ∧
    (retry_deadlines backoff 6 sock).2 =
      [.resend, .resend, .resend, .resend, .resend, .abort] ∧
    (retry_deadlines backoff 6 sock).1.state = tcp_state.CLOSED ∧
    (∀ k : Nat, (retry_deadlines backoff k sock).2.count TimerAction.resend = min k 5) ∧
    (∀ k : Nat, k ≤ 5 →
      (retry_deadlines backoff k sock).2 = List.replicate k TimerAction.resend ∧
      (retry_deadlines backoff k sock).1.state = sock.state) := by
  have hle : sock.numretries ≤ MAX_TRIES := by simp [h0]
  refine ⟨rfl, ?_, ?_, ?_, ?_⟩
  · rw [retry_deadlines_actions backoff 6 sock hle, h0]
    rfl
  · simp [retry_deadlines, retry_timeout, h0, MAX_TRIES, CUInt.store, CUInt.bits]
  · intro k
    rw [retry_deadlines_actions backoff k sock hle, h0]
    simp [MAX_TRIES, List.count_replicate]
  · intro k hk
    refine ⟨?_, (retry_deadlines_state backoff k sock (by simp [h0, MAX_TRIES, hk])).1⟩
    rw [retry_deadlines_actions backoff k sock hle, h0]
    have e1 : min k (MAX_TRIES - 0) = k := by simp only [MAX_TRIES]; omega
    have e2 : k - (MAX_TRIES - 0) = 0 := by simp only [MAX_TRIES]; omega
    rw [e1, e2]
    simp

/-- Witness for C8: the blank TCB, whose retry counter is 0. -/
theorem max_tries_five_resends_witness :
    tcp_socket.blank.numretries = 0 ∧
    (retry_deadlines id 6 tcp_socket.blank).2 =
      [.resend, .resend, .resend, .resend, .resend, .abort] :=
  ⟨rfl, (max_tries_five_resends id tcp_socket.blank rfl).2.1⟩

end Tcp
